import Mathlib

/-!
Verification of the inference-pipeline core of the yolov9-wholebody25
onnxruntime-web detection app.

The TypeScript sources are shallowly embedded: JavaScript `number`s are
modelled as exact rationals (`ℚ`), arrays as `List`s, `Float32Array`
tensors as total maps `ℤ → ℚ`, fallible async methods as `Except`-valued
functions, and the mutable class instances (`YOLOv9Detector`,
`PersonSegmentation`) as explicit state records transformed by pure
functions.  Backend sessions, images and raw tensors that the claims do
not inspect are kept abstract as type parameters, with the operations on
them (session creation, preprocessing, inference) passed in as function
parameters ("oracles") so that the guarded control flow around them is
embedded faithfully.
-/

/-- Embeds `BoundingBox` from `src/renderer/utils/types.ts`.  The TS field
`class` is a reserved word in Lean and is named `cls` here; it is an `ℤ`
because the decode loop can produce the sentinel class `-1`. -/
structure BoundingBox where
  x1 : ℚ
  y1 : ℚ
  x2 : ℚ
  y2 : ℚ
  confidence : ℚ
  cls : ℤ
  label : String
deriving DecidableEq, Repr

/-- Embeds `calculateIoU` from `src/renderer/utils/nms.ts` (lines 3-19):
intersection over union of two axis-aligned boxes, with the intersection
width and height clamped to `≥ 0` before multiplying.  In `ℚ` the division
is total (`x / 0 = 0`); the JS original produces `NaN`/`±Infinity` only
when the union area is zero, which the theorems below avoid via
non-degeneracy hypotheses. -/
def calculateIoU (box1 box2 : BoundingBox) : ℚ :=
  let x1 := max box1.x1 box2.x1
  let y1 := max box1.y1 box2.y1
  let x2 := min box1.x2 box2.x2
  let y2 := min box1.y2 box2.y2
  let intersectionWidth := max 0 (x2 - x1)
  let intersectionHeight := max 0 (y2 - y1)
  let intersectionArea := intersectionWidth * intersectionHeight
  let box1Area := (box1.x2 - box1.x1) * (box1.y2 - box1.y1)
  let box2Area := (box2.x2 - box2.x1) * (box2.y2 - box2.y1)
  let unionArea := box1Area + box2Area - intersectionArea
  intersectionArea / unionArea

/-- The ordering used by `[...boxes].sort((a, b) => b.confidence - a.confidence)`
in `nonMaxSuppression`: descending confidence.  JS `Array.prototype.sort`
is stable, and a stable sort for a given comparator is unique, so the
embedded sort below (`List.insertionSort`, which is stable) produces
exactly the array the JS sort produces. -/
def confGE (a b : BoundingBox) : Prop := b.confidence ≤ a.confidence

instance : DecidableRel confGE := fun a b =>
  inferInstanceAs (Decidable (b.confidence ≤ a.confidence))

instance : IsTotal BoundingBox confGE := ⟨fun a b => le_total b.confidence a.confidence⟩

instance : IsTrans BoundingBox confGE := ⟨fun _ _ _ h1 h2 => le_trans h2 h1⟩

/-- The copy-and-sort step of `nonMaxSuppression` (line 27 of
`src/renderer/utils/nms.ts`). -/
def sortByConfidence (boxes : List BoundingBox) : List BoundingBox :=
  List.insertionSort confGE boxes

/-- The filter predicate of the `nonMaxSuppression` inner loop (line 36 of
`src/renderer/utils/nms.ts`): a remaining box is kept when
`box.class !== current.class || calculateIoU(current, box) < iouThreshold`. -/
def nmsKeep (iouThreshold : ℚ) (current box : BoundingBox) : Bool :=
  decide (box.cls ≠ current.cls ∨ calculateIoU current box < iouThreshold)

/-- The `while (sortedBoxes.length > 0)` loop of `nonMaxSuppression`
(lines 30-42): pop the highest-confidence box, keep it, and drop every
remaining box of the same class with IoU `≥` threshold.  The loop is
embedded with an explicit fuel argument so that it is structurally
recursive (the list shrinks by at least one element per round, so fuel
`= length` always suffices; `nmsRounds_congr` below shows the fuel value
is irrelevant once sufficient). -/
def nmsRounds (iouThreshold : ℚ) : ℕ → List BoundingBox → List BoundingBox
  | 0, _ => []
  | _ + 1, [] => []
  | n + 1, current :: rest =>
      current :: nmsRounds iouThreshold n (rest.filter (nmsKeep iouThreshold current))

/-- The suppression loop applied to an already-sorted list, with the
canonical sufficient fuel. -/
def nmsLoop (iouThreshold : ℚ) (l : List BoundingBox) : List BoundingBox :=
  nmsRounds iouThreshold l.length l

/-- Embeds `nonMaxSuppression` from `src/renderer/utils/nms.ts`
(lines 21-45).  The early return for an empty input is subsumed by the
loop embedding. -/
def nonMaxSuppression (boxes : List BoundingBox) (iouThreshold : ℚ) : List BoundingBox :=
  nmsRounds iouThreshold boxes.length (sortByConfidence boxes)

theorem nmsRounds_congr (iouThreshold : ℚ) :
    ∀ (n m : ℕ) (l : List BoundingBox), l.length ≤ n → l.length ≤ m →
      nmsRounds iouThreshold n l = nmsRounds iouThreshold m l := by
  intro n
  induction n with
  | zero =>
    intro m l hn _
    have hl : l = [] := List.eq_nil_of_length_eq_zero (Nat.le_zero.mp hn)
    subst hl
    cases m <;> rfl
  | succ n ih =>
    intro m l hn hm
    cases l with
    | nil => cases m <;> rfl
    | cons current rest =>
      cases m with
      | zero => exact absurd hm (by simp)
      | succ m =>
        simp only [nmsRounds]
        refine congrArg _ (ih m _ ?_ ?_)
        · exact le_trans (List.length_filter_le _ _) (Nat.le_of_succ_le_succ hn)
        · exact le_trans (List.length_filter_le _ _) (Nat.le_of_succ_le_succ hm)

theorem nmsLoop_nil (iouThreshold : ℚ) : nmsLoop iouThreshold [] = [] := rfl

theorem nmsLoop_cons (iouThreshold : ℚ) (current : BoundingBox) (rest : List BoundingBox) :
    nmsLoop iouThreshold (current :: rest) =
      current :: nmsLoop iouThreshold (rest.filter (nmsKeep iouThreshold current)) := by
  simp only [nmsLoop, List.length_cons, nmsRounds]
  exact congrArg _ (nmsRounds_congr _ _ _ _ (List.length_filter_le _ _) le_rfl)

theorem nonMaxSuppression_eq_nmsLoop (boxes : List BoundingBox) (iouThreshold : ℚ) :
    nonMaxSuppression boxes iouThreshold = nmsLoop iouThreshold (sortByConfidence boxes) := by
  simp only [nonMaxSuppression, nmsLoop, sortByConfidence, List.length_insertionSort]

theorem nmsLoop_sublist (iouThreshold : ℚ) :
    ∀ (n : ℕ) (l : List BoundingBox), l.length ≤ n →
      (nmsLoop iouThreshold l).Sublist l := by
  intro n
  induction n with
  | zero =>
    intro l hn
    have hl : l = [] := List.eq_nil_of_length_eq_zero (Nat.le_zero.mp hn)
    subst hl
    simp [nmsLoop_nil]
  | succ n ih =>
    intro l hn
    cases l with
    | nil => simp [nmsLoop_nil]
    | cons current rest =>
      rw [nmsLoop_cons]
      refine List.Sublist.cons₂ current ?_
      exact List.Sublist.trans
        (ih _ (le_trans (List.length_filter_le _ _) (Nat.le_of_succ_le_succ hn)))
        (@List.filter_sublist _ (nmsKeep iouThreshold current) rest)

theorem nmsLoop_subset {iouThreshold : ℚ} {l : List BoundingBox} {b : BoundingBox}
    (hb : b ∈ nmsLoop iouThreshold l) : b ∈ l :=
  (nmsLoop_sublist iouThreshold l.length l le_rfl).subset hb

theorem nmsLoop_idem (iouThreshold : ℚ) :
    ∀ (n : ℕ) (l : List BoundingBox), l.length ≤ n →
      nmsLoop iouThreshold (nmsLoop iouThreshold l) = nmsLoop iouThreshold l := by
  intro n
  induction n with
  | zero =>
    intro l hn
    have hl : l = [] := List.eq_nil_of_length_eq_zero (Nat.le_zero.mp hn)
    subst hl
    simp [nmsLoop_nil]
  | succ n ih =>
    intro l hn
    cases l with
    | nil => simp [nmsLoop_nil]
    | cons current rest =>
      rw [nmsLoop_cons, nmsLoop_cons]
      have hfl : (rest.filter (nmsKeep iouThreshold current)).length ≤ n :=
        le_trans (List.length_filter_le _ _) (Nat.le_of_succ_le_succ hn)
      have hsub : ∀ b ∈ nmsLoop iouThreshold (rest.filter (nmsKeep iouThreshold current)),
          nmsKeep iouThreshold current b = true := by
        intro b hb
        exact (List.mem_filter.mp (nmsLoop_subset hb)).2
      rw [List.filter_eq_self.mpr hsub]
      exact congrArg _ (ih _ hfl)

theorem nmsLoop_pairwise (iouThreshold : ℚ) :
    ∀ (n : ℕ) (l : List BoundingBox), l.length ≤ n →
      (nmsLoop iouThreshold l).Pairwise (fun a b => nmsKeep iouThreshold a b = true) := by
  intro n
  induction n with
  | zero =>
    intro l hn
    have hl : l = [] := List.eq_nil_of_length_eq_zero (Nat.le_zero.mp hn)
    subst hl
    simp [nmsLoop_nil]
  | succ n ih =>
    intro l hn
    cases l with
    | nil => simp [nmsLoop_nil]
    | cons current rest =>
      rw [nmsLoop_cons]
      refine List.Pairwise.cons ?_ ?_
      · intro b hb
        exact (List.mem_filter.mp (nmsLoop_subset hb)).2
      · exact ih _ (le_trans (List.length_filter_le _ _) (Nat.le_of_succ_le_succ hn))

theorem nmsLoop_sorted (iouThreshold : ℚ) :
    ∀ (n : ℕ) (l : List BoundingBox), l.length ≤ n → l.Sorted confGE →
      (nmsLoop iouThreshold l).Sorted confGE := by
  intro n
  induction n with
  | zero =>
    intro l hn _
    have hl : l = [] := List.eq_nil_of_length_eq_zero (Nat.le_zero.mp hn)
    subst hl
    simp [nmsLoop_nil]
  | succ n ih =>
    intro l hn hs
    cases l with
    | nil => simp [nmsLoop_nil]
    | cons current rest =>
      rw [nmsLoop_cons]
      rw [List.sorted_cons] at hs
      refine List.Pairwise.cons ?_ ?_
      · intro b hb
        exact hs.1 b ((List.filter_sublist rest).subset (nmsLoop_subset hb))
      · refine ih _ (le_trans (List.length_filter_le _ _) (Nat.le_of_succ_le_succ hn)) ?_
        exact hs.2.filter _

theorem nmsLoop_coverage (iouThreshold : ℚ) :
    ∀ (n : ℕ) (l : List BoundingBox), l.length ≤ n →
      ∀ b ∈ l, b ∈ nmsLoop iouThreshold l ∨
        ∃ a, a ∈ nmsLoop iouThreshold l ∧ a.cls = b.cls ∧ iouThreshold ≤ calculateIoU a b := by
  intro n
  induction n with
  | zero =>
    intro l hn
    have hl : l = [] := List.eq_nil_of_length_eq_zero (Nat.le_zero.mp hn)
    subst hl
    simp
  | succ n ih =>
    intro l hn b hb
    cases l with
    | nil => simp at hb
    | cons current rest =>
      rw [nmsLoop_cons]
      rcases List.mem_cons.mp hb with hb | hb
      · exact Or.inl (hb ▸ List.mem_cons_self _ _)
      · by_cases hkeep : nmsKeep iouThreshold current b = true
        · have hbf : b ∈ rest.filter (nmsKeep iouThreshold current) :=
            List.mem_filter.mpr ⟨hb, hkeep⟩
          have hfl : (rest.filter (nmsKeep iouThreshold current)).length ≤ n :=
            le_trans (List.length_filter_le _ _) (Nat.le_of_succ_le_succ hn)
          rcases ih _ hfl b hbf with h | ⟨a, ha, hacls, haiou⟩
          · exact Or.inl (List.mem_cons_of_mem _ h)
          · exact Or.inr ⟨a, List.mem_cons_of_mem _ ha, hacls, haiou⟩
        · have hdrop : b.cls = current.cls ∧ iouThreshold ≤ calculateIoU current b := by
            have hprop : ¬(b.cls ≠ current.cls ∨ calculateIoU current b < iouThreshold) := by
              simpa [nmsKeep] using hkeep
            push_neg at hprop
            exact ⟨hprop.1, hprop.2⟩
          exact Or.inr ⟨current, List.mem_cons_self _ _, hdrop.1.symm, hdrop.2⟩

theorem calculateIoU_comm (a b : BoundingBox) : calculateIoU a b = calculateIoU b a := by
  simp only [calculateIoU]
  rw [max_comm a.x1 b.x1, max_comm a.y1 b.y1, min_comm a.x2 b.x2, min_comm a.y2 b.y2]
  ring_nf

theorem calculateIoU_self (a : BoundingBox) (hx : a.x1 < a.x2) (hy : a.y1 < a.y2) :
    calculateIoU a a = 1 := by
  simp only [calculateIoU, max_self, min_self]
  rw [max_eq_right (by linarith : (0 : ℚ) ≤ a.x2 - a.x1),
    max_eq_right (by linarith : (0 : ℚ) ≤ a.y2 - a.y1)]
  have harea : 0 < (a.x2 - a.x1) * (a.y2 - a.y1) :=
    mul_pos (by linarith) (by linarith)
  rw [show (a.x2 - a.x1) * (a.y2 - a.y1) + (a.x2 - a.x1) * (a.y2 - a.y1) -
      (a.x2 - a.x1) * (a.y2 - a.y1) = (a.x2 - a.x1) * (a.y2 - a.y1) by ring]
  exact div_self (ne_of_gt harea)

theorem calculateIoU_of_disjoint (a b : BoundingBox)
    (hsep : min a.x2 b.x2 ≤ max a.x1 b.x1 ∨ min a.y2 b.y2 ≤ max a.y1 b.y1) :
    calculateIoU a b = 0 := by
  simp only [calculateIoU]
  rcases hsep with h | h
  · rw [max_eq_left (by linarith : min a.x2 b.x2 - max a.x1 b.x1 ≤ 0)]
    simp
  · rw [max_eq_left (by linarith : min a.y2 b.y2 - max a.y1 b.y1 ≤ 0)]
    simp

theorem calculateIoU_nonneg (a b : BoundingBox)
    (hax : a.x1 < a.x2) (hay : a.y1 < a.y2) (hbx : b.x1 < b.x2) (hby : b.y1 < b.y2) :
    0 ≤ calculateIoU a b := by
  simp only [calculateIoU]
  have hcw0 : (0 : ℚ) ≤ max 0 (min a.x2 b.x2 - max a.x1 b.x1) := le_max_left _ _
  have hch0 : (0 : ℚ) ≤ max 0 (min a.y2 b.y2 - max a.y1 b.y1) := le_max_left _ _
  have hcw : max 0 (min a.x2 b.x2 - max a.x1 b.x1) ≤ a.x2 - a.x1 := by
    refine max_le (by linarith) ?_
    have h1 : min a.x2 b.x2 ≤ a.x2 := min_le_left _ _
    have h2 : a.x1 ≤ max a.x1 b.x1 := le_max_left _ _
    linarith
  have hch : max 0 (min a.y2 b.y2 - max a.y1 b.y1) ≤ a.y2 - a.y1 := by
    refine max_le (by linarith) ?_
    have h1 : min a.y2 b.y2 ≤ a.y2 := min_le_left _ _
    have h2 : a.y1 ≤ max a.y1 b.y1 := le_max_left _ _
    linarith
  have hinter : max 0 (min a.x2 b.x2 - max a.x1 b.x1) * max 0 (min a.y2 b.y2 - max a.y1 b.y1) ≤
      (a.x2 - a.x1) * (a.y2 - a.y1) :=
    mul_le_mul hcw hch hch0 (by linarith)
  have hb2 : (0 : ℚ) ≤ (b.x2 - b.x1) * (b.y2 - b.y1) :=
    mul_nonneg (by linarith) (by linarith)
  refine div_nonneg (mul_nonneg hcw0 hch0) ?_
  linarith

/-- C7: `calculateIoU` is symmetric, equals `1` on any non-degenerate box paired
with itself, vanishes on non-overlapping non-degenerate boxes (the
intersection width/height clamp makes the intersection area zero), and is
never negative on non-degenerate boxes. -/
theorem calculateIoU_spec :
    (∀ a b : BoundingBox, calculateIoU a b = calculateIoU b a) ∧
    (∀ a : BoundingBox, a.x1 < a.x2 → a.y1 < a.y2 → calculateIoU a a = 1) ∧
    (∀ a b : BoundingBox, a.x1 < a.x2 → a.y1 < a.y2 → b.x1 < b.x2 → b.y1 < b.y2 →
      (min a.x2 b.x2 ≤ max a.x1 b.x1 ∨ min a.y2 b.y2 ≤ max a.y1 b.y1) →
      calculateIoU a b = 0) ∧
    (∀ a b : BoundingBox, a.x1 < a.x2 → a.y1 < a.y2 → b.x1 < b.x2 → b.y1 < b.y2 →
      0 ≤ calculateIoU a b) :=
  ⟨calculateIoU_comm,
   calculateIoU_self,
   fun a b _ _ _ _ hsep => calculateIoU_of_disjoint a b hsep,
   calculateIoU_nonneg⟩

/-- A concrete box used to instantiate the hypothesis-bearing theorems. -/
def boxA : BoundingBox := ⟨0, 0, 2, 2, mkRat 9 10, 0, "Body"⟩

/-- Same coordinates as `boxA` but a different class and lower confidence. -/
def boxB : BoundingBox := ⟨0, 0, 2, 2, mkRat 8 10, 1, "Face"⟩

/-- A box disjoint from `boxA`. -/
def boxC : BoundingBox := ⟨3, 0, 5, 2, mkRat 7 10, 0, "Body"⟩

/-- Witness for C7 at concrete boxes. -/
theorem calculateIoU_spec_witness :
    calculateIoU boxA boxC = calculateIoU boxC boxA ∧
    calculateIoU boxA boxA = 1 ∧
    calculateIoU boxA boxC = 0 ∧
    0 ≤ calculateIoU boxA boxC :=
  ⟨calculateIoU_spec.1 boxA boxC,
   calculateIoU_spec.2.1 boxA (by decide) (by decide),
   calculateIoU_spec.2.2.1 boxA boxC (by decide) (by decide) (by decide) (by decide) (by decide),
   calculateIoU_spec.2.2.2 boxA boxC (by decide) (by decide) (by decide) (by decide)⟩

/-- C3: non-maximum suppression is idempotent: applying `nonMaxSuppression`
to its own output, with the same IoU threshold, returns the output
unchanged, for every box list and every threshold. -/
theorem nonMaxSuppression_idem (B : List BoundingBox) (iouThreshold : ℚ) :
    nonMaxSuppression (nonMaxSuppression B iouThreshold) iouThreshold =
      nonMaxSuppression B iouThreshold := by
  have hsorted : (nmsLoop iouThreshold (sortByConfidence B)).Sorted confGE :=
    nmsLoop_sorted iouThreshold _ _ le_rfl (List.sorted_insertionSort confGE B)
  rw [nonMaxSuppression_eq_nmsLoop, nonMaxSuppression_eq_nmsLoop,
    show sortByConfidence (nmsLoop iouThreshold (sortByConfidence B)) =
      nmsLoop iouThreshold (sortByConfidence B) from hsorted.insertionSort_eq]
  exact nmsLoop_idem iouThreshold _ _ le_rfl

/-- C4: suppression is class-scoped and never merges classes: any two
distinct boxes that both survive `nonMaxSuppression` while overlapping with
IoU `≥` the threshold have different classes, and a box is only ever removed
because of an accepted box of the same class with IoU `≥` the threshold
(boxes of different classes never suppress each other). -/
theorem nonMaxSuppression_classScoped (B : List BoundingBox) (iouThreshold : ℚ) :
    (∀ a, a ∈ nonMaxSuppression B iouThreshold →
      ∀ b, b ∈ nonMaxSuppression B iouThreshold → a ≠ b →
        iouThreshold ≤ calculateIoU a b → a.cls ≠ b.cls) ∧
    (∀ b, b ∈ B → b ∈ nonMaxSuppression B iouThreshold ∨
      ∃ a, a ∈ nonMaxSuppression B iouThreshold ∧ a.cls = b.cls ∧
        iouThreshold ≤ calculateIoU a b) := by
  rw [nonMaxSuppression_eq_nmsLoop]
  constructor
  · have hpw := nmsLoop_pairwise iouThreshold (sortByConfidence B).length
      (sortByConfidence B) le_rfl
    have hR : (nmsLoop iouThreshold (sortByConfidence B)).Pairwise
        (fun a b => iouThreshold ≤ calculateIoU a b → a.cls ≠ b.cls) := by
      refine hpw.imp ?_
      intro a b hk hiou
      rcases of_decide_eq_true hk with h | h
      · exact h.symm
      · exact absurd h (not_lt.mpr hiou)
    have hsymm : Symmetric (fun a b : BoundingBox =>
        iouThreshold ≤ calculateIoU a b → a.cls ≠ b.cls) := by
      intro a b hab hiou
      rw [calculateIoU_comm] at hiou
      exact (hab hiou).symm
    intro a ha b hb hne
    exact hR.forall hsymm ha hb hne
  · intro b hb
    have hbs : b ∈ sortByConfidence B := by
      simpa [sortByConfidence] using (List.mem_insertionSort confGE).mpr hb
    exact nmsLoop_coverage iouThreshold _ _ le_rfl b hbs

/-- The identically-placed boxes `boxA` and `boxB` have IoU `1`. -/
theorem calculateIoU_boxA_boxB : calculateIoU boxA boxB = 1 := by
  simp only [calculateIoU, boxA, boxB, max_self, min_self]
  norm_num

/-- Witness for C4: for `[boxA, boxB]` (same coordinates, different classes)
both boxes survive, overlap with IoU `1 ≥ 0.45`, and indeed have different
classes; the coverage disjunct holds for `boxA`. -/
theorem nonMaxSuppression_classScoped_witness :
    boxA.cls ≠ boxB.cls ∧
    (boxA ∈ nonMaxSuppression [boxA, boxB] (mkRat 9 20) ∨
      ∃ a, a ∈ nonMaxSuppression [boxA, boxB] (mkRat 9 20) ∧ a.cls = boxA.cls ∧
        mkRat 9 20 ≤ calculateIoU a boxA) :=
  ⟨(nonMaxSuppression_classScoped [boxA, boxB] (mkRat 9 20)).1 boxA (by decide) boxB
      (by decide) (by decide) (by rw [calculateIoU_boxA_boxB]; decide),
   (nonMaxSuppression_classScoped [boxA, boxB] (mkRat 9 20)).2 boxA (by decide)⟩

/-- C10: `nonMaxSuppression` returns a sub-collection of its input: the
output is a subpermutation of the input list (every returned box is one of
the input boxes, with multiplicity, all fields unaltered), so no new or
modified box is ever created.  The input list itself is untouched — the
embedding is pure, matching the source, which sorts a spread copy
`[...boxes]` and only ever moves references into `selected`. -/
theorem nonMaxSuppression_subcollection (B : List BoundingBox) (iouThreshold : ℚ) :
    (nonMaxSuppression B iouThreshold).Subperm B ∧
    ∀ b, b ∈ nonMaxSuppression B iouThreshold → b ∈ B := by
  have hs : List.Sublist (nonMaxSuppression B iouThreshold) (sortByConfidence B) := by
    rw [nonMaxSuppression_eq_nmsLoop]
    exact nmsLoop_sublist iouThreshold _ _ le_rfl
  have hperm : List.Perm (sortByConfidence B) B := List.perm_insertionSort confGE B
  exact ⟨hs.subperm.trans hperm.subperm, fun b hb => hperm.subset (hs.subset hb)⟩

/-- Witness for C10 at a concrete list. -/
theorem nonMaxSuppression_subcollection_witness : boxA ∈ [boxA, boxB] :=
  (nonMaxSuppression_subcollection [boxA, boxB] (mkRat 9 20)).2 boxA (by decide)

/-- Embeds the `labels` table of `YOLOv9Detector`
(`src/renderer/utils/yolov9.ts` lines 13-19): the fixed ordered sequence of
25 class names. -/
def labels : List String :=
  ["Body", "Adult", "Child", "Male", "Female",
   "Body_with_Wheelchair", "Body_with_Crutches", "Head", "Front", "Right_Front",
   "Right_Side", "Right_Back", "Back", "Left_Back", "Left_Side",
   "Left_Front", "Face", "Eye", "Nose", "Mouth",
   "Ear", "Hand", "Hand_Left", "Hand_Right", "Foot"]

/-- Embeds `excludedClassIds` of `YOLOv9Detector`
(`src/renderer/utils/yolov9.ts` lines 21-23).  The TS `Set<number>` is a
list here; only membership is ever used. -/
def excludedClassIds : List ℤ :=
  [1, 2, 3, 4, 8, 9, 10, 11, 12, 13, 14, 15, 22, 23]

/-- Embeds the label lookup `this.labels[bestClass] || class_id fallback`
(line 253 of `src/renderer/utils/yolov9.ts`): an in-range index yields the
(always non-empty, hence truthy) table entry, any other index yields the
template-string fallback. -/
def labelFor (bestClass : ℤ) : String :=
  if 0 ≤ bestClass ∧ bestClass < (labels.length : ℤ) then labels.getD bestClass.toNat ""
  else "class_" ++ toString bestClass

/-- Embeds the maximum-confidence scan of `postprocess`
(`src/renderer/utils/yolov9.ts` lines 227-235): starting from
`maxConfidence = 0`, `bestClass = -1`, each score strictly greater than the
running maximum replaces it (ties keep the first index, because the
comparison is strict). -/
def bestClassScore (classScores : List ℚ) : ℚ × ℤ :=
  classScores.enum.foldl
    (fun acc p => if acc.1 < p.2 then (p.2, (p.1 : ℤ)) else acc) (0, -1)

/-- The detection-relevant fields of `ModelConfig` from
`src/renderer/utils/types.ts`; `modelPath` and `executionProvider` play no
role in decoding and are omitted. -/
structure ModelConfig where
  inputShape : List ℕ
  confidenceThreshold : ℚ
  iouThreshold : ℚ

/-- A raw output tensor as `postprocess` receives it: the backing
`Float32Array` is modelled as a total map from (integer) index to value
(JS reads at any index; out-of-range reads never influence the claims
proved below), together with the dims. -/
structure OutTensor where
  data : ℤ → ℚ
  dims : List ℕ

/-- Embeds the per-candidate body of the `postprocess` loop
(`src/renderer/utils/yolov9.ts` lines 200-255): read `(cx, cy, w, h)` and
the class scores according to the detected layout, take the best class, and
— when the confidence guard passes and the class is not excluded — convert
center-size to corners, subtract the letterbox padding, clamp, and emit the
box. -/
def decodeOne (config : ModelConfig) (data : ℤ → ℚ) (numBoxes : ℕ) (numClasses : ℤ)
    (isTransposed : Bool) (padX padY originalWidth originalHeight : ℚ)
    (i : ℕ) : Option BoundingBox :=
  let nb : ℤ := (numBoxes : ℤ)
  let ii : ℤ := (i : ℤ)
  let baseIdx : ℤ := ii * (numClasses + 4)
  let cx : ℚ := if isTransposed then data (0 * nb + ii) else data baseIdx
  let cy : ℚ := if isTransposed then data (1 * nb + ii) else data (baseIdx + 1)
  let w : ℚ := if isTransposed then data (2 * nb + ii) else data (baseIdx + 2)
  let h : ℚ := if isTransposed then data (3 * nb + ii) else data (baseIdx + 3)
  let classScores : List ℚ := (List.range numClasses.toNat).map (fun c =>
    if isTransposed then data ((4 + (c : ℤ)) * nb + ii) else data (baseIdx + 4 + (c : ℤ)))
  let best := bestClassScore classScores
  if best.1 > config.confidenceThreshold ∧ best.2 ∉ excludedClassIds then
    let x1 := (cx - w / 2) - padX
    let y1 := (cy - h / 2) - padY
    let x2 := (cx + w / 2) - padX
    let y2 := (cy + h / 2) - padY
    some { x1 := max 0 x1, y1 := max 0 y1,
           x2 := min originalWidth x2, y2 := min originalHeight y2,
           confidence := best.1, cls := best.2, label := labelFor best.2 }
  else none

/-- Embeds `YOLOv9Detector.postprocess` (`src/renderer/utils/yolov9.ts`
lines 158-259): compute the letterbox padding used by preprocessing
(`padX = 0`, `padY = (modelHeight - originalHeight) / 2`), detect the
output layout from the dims (larger non-batch dim = box count; the JS
`numClasses` can be negative for tiny dims, so it is an `ℤ` whose `toNat`
drives the score loop exactly as a JS `for` loop with a negative bound runs
zero times), decode every candidate, and finish with NMS.  A tensor whose
rank is not 3 yields `[]`. -/
def postprocess (config : ModelConfig) (output : OutTensor)
    (originalWidth originalHeight : ℚ) : List BoundingBox :=
  let modelHeight : ℚ := ((config.inputShape.getD 2 0 : ℕ) : ℚ)
  let padX : ℚ := 0
  let padY : ℚ := (modelHeight - originalHeight) / 2
  match output.dims with
  | [_, d1, d2] =>
    let numBoxes : ℕ := if d2 < d1 then d1 else d2
    let numClasses : ℤ := if d2 < d1 then (d2 : ℤ) - 4 else (d1 : ℤ) - 4
    let isTransposed : Bool := !(decide (d2 < d1))
    nonMaxSuppression
      ((List.range numBoxes).filterMap
        (decodeOne config output.data numBoxes numClasses isTransposed
          padX padY originalWidth originalHeight))
      config.iouThreshold
  | _ => []

theorem decodeOne_eq_some {config : ModelConfig} {data : ℤ → ℚ} {numBoxes : ℕ}
    {numClasses : ℤ} {isTransposed : Bool} {padX padY originalWidth originalHeight : ℚ}
    {i : ℕ} {b : BoundingBox}
    (h : decodeOne config data numBoxes numClasses isTransposed
      padX padY originalWidth originalHeight i = some b) :
    config.confidenceThreshold < b.confidence ∧ b.cls ∉ excludedClassIds ∧
    0 ≤ b.x1 ∧ 0 ≤ b.y1 ∧ b.x2 ≤ originalWidth ∧ b.y2 ≤ originalHeight := by
  simp only [decodeOne] at h
  rw [Option.ite_none_right_eq_some, Option.some.injEq] at h
  obtain ⟨hcond, hb⟩ := h
  subst hb
  exact ⟨hcond.1, hcond.2, le_max_left _ _, le_max_left _ _,
    min_le_left _ _, min_le_left _ _⟩

theorem postprocess_mem {config : ModelConfig} {output : OutTensor}
    {originalWidth originalHeight : ℚ} {b : BoundingBox}
    (hb : b ∈ postprocess config output originalWidth originalHeight) :
    config.confidenceThreshold < b.confidence ∧ b.cls ∉ excludedClassIds ∧
    0 ≤ b.x1 ∧ 0 ≤ b.y1 ∧ b.x2 ≤ originalWidth ∧ b.y2 ≤ originalHeight := by
  simp only [postprocess] at hb
  split at hb
  case h_1 =>
    have hcand := (nonMaxSuppression_subcollection _ _).2 b hb
    rcases List.mem_filterMap.mp hcand with ⟨i, _, hsome⟩
    exact decodeOne_eq_some hsome
  case h_2 => exact absurd hb (by simp)

/-- C5: every box in the decode output has confidence strictly greater than
the configured confidence threshold, for every raw output tensor, original
frame size, and threshold. -/
theorem postprocess_confidence_gt (config : ModelConfig) (output : OutTensor)
    (originalWidth originalHeight : ℚ) :
    ∀ b ∈ postprocess config output originalWidth originalHeight,
      config.confidenceThreshold < b.confidence :=
  fun _ hb => (postprocess_mem hb).1

/-- C6: decoding never emits a box whose class is in the fixed excluded-class
set, for every raw output tensor and every confidence value. -/
theorem postprocess_no_excluded (config : ModelConfig) (output : OutTensor)
    (originalWidth originalHeight : ℚ) :
    ∀ b ∈ postprocess config output originalWidth originalHeight,
      b.cls ∉ excludedClassIds :=
  fun _ hb => (postprocess_mem hb).2.1

/-- C1 (amended): every box emitted by the decode satisfies the one-sided
clamps `0 ≤ x1`, `0 ≤ y1`, `x2 ≤ origW`, `y2 ≤ origH`.  The two-sided chain
`0 ≤ x1 ≤ x2 ≤ origW` / `0 ≤ y1 ≤ y2 ≤ origH` claimed by the spec does not
hold for every raw tensor: `x1`/`y1` are only clamped from below and
`x2`/`y2` only from above, so a candidate with negative decoded
width/height, or lying outside the frame, is emitted with `x2 < x1` or
`y2 < y1` (see the counterexample). -/
theorem postprocess_clamped (config : ModelConfig) (output : OutTensor)
    (originalWidth originalHeight : ℚ) :
    ∀ b ∈ postprocess config output originalWidth originalHeight,
      0 ≤ b.x1 ∧ 0 ≤ b.y1 ∧ b.x2 ≤ originalWidth ∧ b.y2 ≤ originalHeight :=
  fun _ hb => ⟨(postprocess_mem hb).2.2.1, (postprocess_mem hb).2.2.2.1,
    (postprocess_mem hb).2.2.2.2.1, (postprocess_mem hb).2.2.2.2.2⟩

/-- `nonMaxSuppression` on a single box returns that box. -/
theorem nonMaxSuppression_singleton (b : BoundingBox) (iouThreshold : ℚ) :
    nonMaxSuppression [b] iouThreshold = [b] := by
  rw [nonMaxSuppression_eq_nmsLoop,
    show sortByConfidence [b] = [b] from rfl, nmsLoop_cons]
  simp [nmsLoop_nil]

/-- The detection configuration the app constructs (`App.tsx`): 640×640
input, confidence threshold 0.3, IoU threshold 0.45. -/
def exConfig : ModelConfig := ⟨[1, 3, 640, 640], mkRat 3 10, mkRat 9 20⟩

/-- A concrete raw tensor: every entry is `0` except index 24, which holds
the class-0 score `1` of candidate `i = 0` in the transposed `[1, 5, 6]`
layout (6 candidate boxes, 1 class). -/
def exData : ℤ → ℚ := fun j => if j = 24 then 1 else 0

/-- The tensor `exData` with dims `[1, 5, 6]` (channel-major, so the decode
treats it as transposed). -/
def exTensor : OutTensor := ⟨exData, [1, 5, 6]⟩

/-- The single box decoded from `exTensor` for a 640×480 frame: the
candidate has `cx = cy = w = h = 0`, so after subtracting the letterbox
offset `padY = 80` and clamping, `y1 = max 0 (-80) = 0` but
`y2 = min 480 (-80) = -80`. -/
def exBox : BoundingBox := ⟨0, 0, 0, -80, 1, 0, "Body"⟩

theorem decodeOne_exData_zero :
    decodeOne exConfig exData 6 1 true 0 80 640 480 0 = some exBox := by
  simp only [decodeOne, exConfig, exData, bestClassScore, labelFor, labels,
    excludedClassIds, List.range_succ, List.range_zero, List.map_cons, List.map_nil,
    List.enum, List.enumFrom, List.foldl, exBox]
  norm_num [max_def, min_def]

theorem exCandidates_eval :
    (List.range 6).filterMap (decodeOne exConfig exData 6 1 true 0 80 640 480) =
      [exBox] := by
  rw [show List.range 6 = [0, 1, 2, 3, 4, 5] from rfl]
  simp only [List.filterMap_cons, List.filterMap_nil, decodeOne_exData_zero,
    show decodeOne exConfig exData 6 1 true 0 80 640 480 1 = none by decide,
    show decodeOne exConfig exData 6 1 true 0 80 640 480 2 = none by decide,
    show decodeOne exConfig exData 6 1 true 0 80 640 480 3 = none by decide,
    show decodeOne exConfig exData 6 1 true 0 80 640 480 4 = none by decide,
    show decodeOne exConfig exData 6 1 true 0 80 640 480 5 = none by decide]

theorem postprocess_exTensor_eval :
    postprocess exConfig exTensor 640 480 = [exBox] := by
  simp only [postprocess, exTensor]
  norm_num
  rw [show (((exConfig.inputShape[2]?.getD 0 : ℕ) : ℚ) - 480) / 2 = 80 by
    norm_num [exConfig]]
  rw [exCandidates_eval, nonMaxSuppression_singleton]

/-- Counterexample for C1 as stated: for the concrete raw tensor `exTensor`
and a 640×480 frame, the decode emits exactly `exBox`, which violates both
`y1 ≤ y2` and `0 ≤ y2` (its `y2 = -80`): the clamping invariant
`0 ≤ y1 ≤ y2 ≤ origH` does not hold for every raw output tensor. -/
theorem postprocess_clamping_counterexample :
    postprocess exConfig exTensor 640 480 = [exBox] ∧
    ¬(exBox.y1 ≤ exBox.y2) ∧ ¬(0 ≤ exBox.y2) :=
  ⟨postprocess_exTensor_eval, by decide, by decide⟩

/-- Witness for the amended C1 at the concrete decode output. -/
theorem postprocess_clamped_witness :
    0 ≤ exBox.x1 ∧ 0 ≤ exBox.y1 ∧ exBox.x2 ≤ 640 ∧ exBox.y2 ≤ 480 :=
  postprocess_clamped exConfig exTensor 640 480 exBox
    (by rw [postprocess_exTensor_eval]; decide)

/-- Witness for C5 at the concrete decode output. -/
theorem postprocess_confidence_gt_witness :
    exConfig.confidenceThreshold < exBox.confidence :=
  postprocess_confidence_gt exConfig exTensor 640 480 exBox
    (by rw [postprocess_exTensor_eval]; decide)

/-- Witness for C6 at the concrete decode output. -/
theorem postprocess_no_excluded_witness : exBox.cls ∉ excludedClassIds :=
  postprocess_no_excluded exConfig exTensor 640 480 exBox
    (by rw [postprocess_exTensor_eval]; decide)

/-- The mutable fields of `PersonSegmentation`
(`src/renderer/utils/segmentation.ts`) that the lifecycle claims concern:
the session reference (abstract session type `σ`) and
`config.executionProvider`, the field `getActiveProvider()` returns and
`initialize()` overwrites on success. -/
structure SegState (σ : Type) where
  session : Option σ
  executionProvider : String
deriving DecidableEq, Repr

/-- The result of a failed `initialize()`: the code runs
`throw lastError || new Error(...)` (line 294), i.e. the recorded last
underlying error if one exists, otherwise a fresh generic error.  The JS
truthiness coalescing is faithful here for any thrown `Error` object
(always truthy); underlying errors are opaque values of type `ε`. -/
inductive InitError (ε : Type) where
  | underlying (e : ε)
  | allProvidersFailed
deriving DecidableEq, Repr

/-- The candidate-provider table of `PersonSegmentation.initialize`
(`src/renderer/utils/segmentation.ts` lines 214-218): in the committed
source only the `webnn` entry is active — the `webgpu` and `webgl` entries
are commented out. -/
def segCandidateProviders : List (String × List String) :=
  [("webnn", ["webnn", "wasm"])]

/-- The provider loop of `PersonSegmentation.initialize` (lines 223-289).
`attempt` bundles the whole fallible `try` body for one candidate (adapter
selection when required, then `ort.InferenceSession.create`): on success
the session is stored and `config.executionProvider` is overwritten with
the provider name; on failure the error is recorded as `lastError`, any
live session is released (release errors are swallowed) and nulled, and
the loop continues.  Returns the final state, the recorded last error, and
the `sessionCreated` flag. -/
def segInitLoop {σ ε : Type} (attempt : String × List String → Except ε σ) :
    List (String × List String) → SegState σ → Option ε →
    SegState σ × Option ε × Bool
  | [], st, lastError => (st, lastError, false)
  | provider :: rest, st, lastError =>
    match attempt provider with
    | Except.ok s => ({ session := some s, executionProvider := provider.1 }, lastError, true)
    | Except.error e => segInitLoop attempt rest { st with session := none } (some e)

/-- Embeds `PersonSegmentation.initialize` (lines 210-296): run the
provider loop; if no session was created, throw
`lastError || new Error(...)`.  The instance state after the call is
returned alongside the `Except` result (a JS `throw` leaves the object's
fields as the loop left them). -/
def segInitialize {σ ε : Type} (providers : List (String × List String))
    (attempt : String × List String → Except ε σ) (st : SegState σ) :
    Except (InitError ε) Unit × SegState σ :=
  match segInitLoop attempt providers st none with
  | (st2, _, true) => (Except.ok (), st2)
  | (st2, some e, false) => (Except.error (InitError.underlying e), st2)
  | (st2, none, false) => (Except.error InitError.allProvidersFailed, st2)

/-- Embeds `PersonSegmentation.getActiveProvider` (lines 394-396): returns
`config.executionProvider` unconditionally. -/
def getActiveProvider {σ : Type} (st : SegState σ) : String :=
  st.executionProvider

/-- C2 (amended): when every candidate backend fails, `initialize()`
rejects with the last underlying error, the session reference is null
after the call, and the `executionProvider` field — hence
`getActiveProvider()` — is left exactly as it was before the call: the
success-path assignment never executes, but the getter still reports the
initially configured backend rather than becoming unset. -/
theorem segInitialize_allFail {σ ε : Type}
    (attempt : String × List String → Except ε σ) (st : SegState σ) (e : ε)
    (h : attempt ("webnn", ["webnn", "wasm"]) = Except.error e) :
    segInitialize segCandidateProviders attempt st =
      (Except.error (InitError.underlying e),
        { session := none, executionProvider := st.executionProvider }) ∧
    getActiveProvider (segInitialize segCandidateProviders attempt st).2 =
      getActiveProvider st := by
  simp [segInitialize, segInitLoop, segCandidateProviders, h, getActiveProvider]

/-- An attempt oracle on which every provider fails with error `7`. -/
def exAttempt : String × List String → Except ℕ ℕ := fun _ => Except.error 7

/-- A pre-call segmentation state: a stale session and the initially
configured provider `"webgl"`. -/
def exSegState : SegState ℕ := ⟨some 5, "webgl"⟩

/-- Witness for the amended C2 at a concrete state and failing oracle. -/
theorem segInitialize_allFail_witness :
    segInitialize segCandidateProviders exAttempt exSegState =
      (Except.error (InitError.underlying 7),
        { session := none, executionProvider := exSegState.executionProvider }) ∧
    getActiveProvider (segInitialize segCandidateProviders exAttempt exSegState).2 =
      getActiveProvider exSegState :=
  segInitialize_allFail exAttempt exSegState 7 rfl

/-- Counterexample for C2 as stated: after an `initialize()` in which every
candidate backend failed, `getActiveProvider()` does NOT remain unset — it
still reports the initially configured backend `"webgl"` (the
`executionProvider` field always holds a backend name; there is no unset
value). -/
theorem segInitialize_allFail_counterexample :
    (segInitialize segCandidateProviders exAttempt exSegState).1 =
      Except.error (InitError.underlying 7) ∧
    getActiveProvider (segInitialize segCandidateProviders exAttempt exSegState).2 =
      "webgl" ∧ "webgl" ≠ "" := by
  refine ⟨rfl, rfl, by decide⟩

/-- The mutable fields of `YOLOv9Detector` (`src/renderer/utils/yolov9.ts`)
relevant to its lifecycle: the session reference and the `isWebGPU` flag. -/
structure DetectorState (σ : Type) where
  session : Option σ
  isWebGPU : Bool
deriving DecidableEq, Repr

/-- Embeds `YOLOv9Detector.dispose` (`src/renderer/utils/yolov9.ts`
lines 265-280): if a session exists, the reference is nulled FIRST and only
then is the release awaited; a release error is caught and logged
(returned here as a warning string), never rethrown.  `isWebGPU` is reset
unconditionally.  The function is total: it cannot throw. -/
def disposeDetector {σ : Type} (st : DetectorState σ)
    (release : σ → Except String Unit) : DetectorState σ × List String :=
  match st.session with
  | none => ({ st with isWebGPU := false }, [])
  | some s =>
    match release s with
    | Except.ok _ => ({ session := none, isWebGPU := false }, [])
    | Except.error e =>
        ({ session := none, isWebGPU := false },
         ["Error releasing session (may already be released): " ++ e])

/-- Embeds `PersonSegmentation.dispose` (`src/renderer/utils/segmentation.ts`
lines 398-409): same null-first pattern; release errors are swallowed
(logged as a warning), and the provider field is untouched. -/
def disposeSegmentation {σ : Type} (st : SegState σ)
    (release : σ → Except String Unit) : SegState σ × List String :=
  match st.session with
  | none => (st, [])
  | some s =>
    match release s with
    | Except.ok _ => ({ st with session := none }, [])
    | Except.error e =>
        ({ st with session := none }, ["Error releasing segmentation session: " ++ e])

/-- C9: `dispose()` is idempotent and never throws, for both pipelines: the
model is a total function (even a failing `release` yields a state, with the
error merely logged), after any disposal the session reference is null and
the detector's `isWebGPU` flag is cleared, and a second disposal — even with
a different (possibly failing) release behaviour — performs no release,
emits no warning, and leaves the state unchanged. -/
theorem dispose_idempotent {σ : Type} (st : DetectorState σ) (st2 : SegState σ)
    (release release2 : σ → Except String Unit) :
    (disposeDetector st release).1.session = none ∧
    (disposeDetector st release).1.isWebGPU = false ∧
    disposeDetector (disposeDetector st release).1 release2 =
      ((disposeDetector st release).1, []) ∧
    (disposeSegmentation st2 release).1.session = none ∧
    disposeSegmentation (disposeSegmentation st2 release).1 release2 =
      ((disposeSegmentation st2 release).1, []) := by
  cases hs : st.session with
  | none =>
    cases hs2 : st2.session with
    | none => simp [disposeDetector, disposeSegmentation, hs, hs2]
    | some s2 =>
      cases hr2 : release s2 <;>
        simp [disposeDetector, disposeSegmentation, hs, hs2, hr2]
  | some s =>
    cases hr : release s with
    | ok _ =>
      cases hs2 : st2.session with
      | none => simp [disposeDetector, disposeSegmentation, hs, hs2, hr]
      | some s2 =>
        cases hr2 : release s2 <;>
          simp [disposeDetector, disposeSegmentation, hs, hs2, hr, hr2]
    | error e =>
      cases hs2 : st2.session with
      | none => simp [disposeDetector, disposeSegmentation, hs, hs2, hr]
      | some s2 =>
        cases hr2 : release s2 <;>
          simp [disposeDetector, disposeSegmentation, hs, hs2, hr, hr2]

/-- The pieces of tensor work `detect`/`segment` perform after their
not-initialized guard; used to show the guard fires before any of them. -/
inductive TensorWork where
  | preprocessing
  | inference
  | decoding
deriving DecidableEq, Repr

/-- Embeds the control flow of `YOLOv9Detector.detect`
(`src/renderer/utils/yolov9.ts` lines 82-124): without a session it throws
`Model not initialized` immediately; otherwise it preprocesses, runs
inference and decodes.  The image, tensor and raw-output types are
abstract; the second component records which tensor work was performed, in
order. -/
def detect {σ Img Tsr Raw : Type} (session : Option σ)
    (preprocessImage : Img → Tsr) (run : σ → Tsr → Raw)
    (decode : Raw → List BoundingBox) (imageData : Img) :
    Except String (List BoundingBox) × List TensorWork :=
  match session with
  | none => (Except.error "Model not initialized", [])
  | some s =>
    (Except.ok (decode (run s (preprocessImage imageData))),
     [TensorWork.preprocessing, TensorWork.inference, TensorWork.decoding])

/-- Embeds the control flow of `PersonSegmentation.segment`
(`src/renderer/utils/segmentation.ts` lines 335-392): without a session it
throws `Segmentation model not initialized` immediately; otherwise it
preprocesses and runs inference to a mask. -/
def segmentImage {σ Img Tsr Mask : Type} (session : Option σ)
    (preprocessImage : Img → Tsr) (run : σ → Tsr → Mask) (imageData : Img) :
    Except String Mask × List TensorWork :=
  match session with
  | none => (Except.error "Segmentation model not initialized", [])
  | some s =>
    (Except.ok (run s (preprocessImage imageData)),
     [TensorWork.preprocessing, TensorWork.inference])

/-- C8: calling `detect()` or `segment()` with no ready session — before a
successful `initialize()` or after `dispose()` — immediately yields the
not-initialized error with NO tensor work performed (empty work trace, and
the result is independent of the preprocessing/inference functions, which
are never invoked); in particular this holds for the session left by any
`dispose()`. -/
theorem notInitialized_guard {σ Img Tsr Raw Mask : Type}
    (preprocessImage : Img → Tsr) (runDet : σ → Tsr → Raw)
    (decode : Raw → List BoundingBox) (preprocessSeg : Img → Tsr)
    (runSeg : σ → Tsr → Mask) (imageData : Img)
    (st : DetectorState σ) (st2 : SegState σ)
    (release : σ → Except String Unit) :
    detect none preprocessImage runDet decode imageData =
      (Except.error "Model not initialized", ([] : List TensorWork)) ∧
    segmentImage none preprocessSeg runSeg imageData =
      (Except.error "Segmentation model not initialized", ([] : List TensorWork)) ∧
    detect (disposeDetector st release).1.session preprocessImage runDet decode imageData =
      (Except.error "Model not initialized", ([] : List TensorWork)) ∧
    segmentImage (disposeSegmentation st2 release).1.session preprocessSeg runSeg imageData =
      (Except.error "Segmentation model not initialized", ([] : List TensorWork)) := by
  have hd : (disposeDetector st release).1.session = none :=
    (dispose_idempotent st st2 release release).1
  have hsg : (disposeSegmentation st2 release).1.session = none :=
    (dispose_idempotent st st2 release release).2.2.2.1
  rw [hd, hsg]
  exact ⟨rfl, rfl, rfl, rfl⟩
